import Mathlib

/-!
Shallow embedding of the weight-configuration / scoring / CSV-import core of
the doctor-analysis web application, together with proofs of the spec claims.

Numbers that the JavaScript source handles as IEEE doubles are modelled
exactly: as rationals (`ℚ`) in the weight/scoring components, and as exact
decimal fixed-point values (`DecNum`, with a `toRat` semantics map) in
the importer so that the whole pipeline stays kernel-computable.  The
concrete values appearing in the source and in the claims (0.01, 0.1, 40,
85.5, …) are all exactly representable in both, and none of the claims
hinges on floating-point rounding.
-/

namespace RustWebFullstack

/-! ## Weight-configuration shapes and their save-time validation (C1) -/

/-- The 3+1-component weight shape of
`frontend/scripts/weights.js` (`currentWeights`): three main weights summing
to 1.0 plus a title-weight factor. -/
structure WeightsConfig where
  influence_weight : ℚ
  quality_weight : ℚ
  activity_weight : ℚ
  title_weight_factor : ℚ
  deriving DecidableEq, Repr

/-- Sum of the three main weights, as computed in
`WeightsModule.saveWeights` and `updateWeightsSummary`. -/
def WeightsConfig.mainSum (w : WeightsConfig) : ℚ :=
  w.influence_weight + w.quality_weight + w.activity_weight

/-- `WeightsModule.saveWeights` (weights.js lines 532–545): rejects (returns
without calling the persistence API) when `Math.abs(sum - 1) > 0.01`;
otherwise sends the configuration to `api.updateWeights`.  `none` models the
early return, `some w` the persisted payload. -/
def saveWeightsModule (w : WeightsConfig) : Option WeightsConfig :=
  if |w.mainSum - 1| > 1/100 then none else some w

/-- The 3-component integer weight shape of `DoctorAnalysisSystem`
(src/unnamed/part_007): values come from `parseInt`, so they are integers. -/
structure SimpleWeights where
  performance_weight : ℤ
  cost_performance_weight : ℤ
  affinity_weight : ℤ
  deriving DecidableEq, Repr

/-- Sum of the components, as computed by
`Object.values(this.weights).reduce((sum, val) => sum + val, 0)`. -/
def SimpleWeights.total (w : SimpleWeights) : ℤ :=
  w.performance_weight + w.cost_performance_weight + w.affinity_weight

/-- `DoctorAnalysisSystem.saveWeights` (part_007 lines 415–421): rejects with
an error when `total !== 100`, otherwise POSTs the configuration. -/
def saveWeightsSystem (w : SimpleWeights) : Option SimpleWeights :=
  if w.total ≠ 100 then none else some w

/-- The 5-component "medical" weight shape of
`frontend/scripts/medical-weights.js` (`currentWeights`), summing to 100. -/
structure MedicalWeights where
  account_influence_weight : ℚ
  cost_effectiveness_weight : ℚ
  content_quality_weight : ℚ
  medical_credibility_weight : ℚ
  roi_prediction_weight : ℚ
  deriving DecidableEq, Repr

/-- Sum of the five core-indicator weights, as computed by the `reduce` in
`MedicalWeightsModule.validateWeightsForSaving`. -/
def MedicalWeights.total (w : MedicalWeights) : ℚ :=
  w.account_influence_weight + w.cost_effectiveness_weight +
    w.content_quality_weight + w.medical_credibility_weight +
    w.roi_prediction_weight

/-- `MedicalWeightsModule.validateWeightsForSaving` (medical-weights.js lines
649–660): returns `false` when `Math.abs(total - 100) >= 0.1`, else `true`.
A `true` result lets `saveWeightsConfig` POST the configuration. -/
def validateWeightsForSaving (w : MedicalWeights) : Bool :=
  if |w.total - 100| ≥ 1/10 then false else true

/-- The SQL `CHECK` constraint `check_weight_sum` on `medical_weight_configs`
(src/unnamed/part_005): `ABS(sum - 100.0) < 0.01`. -/
def checkWeightSum (w : MedicalWeights) : Bool :=
  decide (|w.total - 100| < 1/100)

/-! ## Weight-configuration stores and the single-default flag (C2) -/

/-- One row of a weight-configuration table, keeping only the fields relevant
to the single-default invariant (`id` is the primary key). -/
structure ConfigRow where
  id : ℕ
  is_default : Bool
  deriving DecidableEq, Repr

/-- Number of rows flagged default/active in a store state. -/
def countDefaults (s : List ConfigRow) : ℕ :=
  s.countP (fun r => r.is_default)

/-- `INSERT` into `medical_weight_configs` under the
`ensure_single_default_medical_weight_insert` trigger (src/unnamed/part_005):
before inserting a row with `is_default = 1`, every existing default flag is
cleared (`UPDATE … SET is_default = 0 WHERE is_default = 1`). -/
def medicalInsert (s : List ConfigRow) (r : ConfigRow) : List ConfigRow :=
  if r.is_default then
    (s.map fun x => { x with is_default := false }) ++ [r]
  else
    s ++ [r]

/-- `UPDATE medical_weight_configs SET is_default = 1 WHERE id = cid` under
the `ensure_single_default_medical_weight` trigger (src/unnamed/part_005):
when the targeted row exists and was not default, the trigger first clears
`is_default` on every other default row, then the update sets the target; if
the row was already default the trigger does not fire and the update changes
nothing; if no row matches, nothing happens. -/
def medicalActivate (s : List ConfigRow) (cid : ℕ) : List ConfigRow :=
  match s.find? (fun r => r.id = cid) with
  | none => s
  | some row =>
    if row.is_default then s
    else
      s.map fun x =>
        if x.id = cid then { x with is_default := true }
        else if x.is_default then { x with is_default := false }
        else x

/-- `INSERT` into the plain `weight_configs` table of
`rust-web-backend/init_db.sql` (lines 37–52): the table carries an
`is_default INTEGER DEFAULT 0` column but no trigger, unique index or check
constraint relating the flags of different rows, so an insert is a plain
append. -/
def plainInsert (s : List ConfigRow) (r : ConfigRow) : List ConfigRow :=
  s ++ [r]

/-- The `weight_configs` store as seeded by `init_db.sql`: one row,
`id = 1`, `is_default = 1`. -/
def seededPlainStore : List ConfigRow := [⟨1, true⟩]

/-! ## Scoring engine fragments (C3) -/

/-- An example entity as scored by `WeightsModule.calculateExampleScore`:
three raw sub-scores plus a title string. -/
structure ScoreExample where
  influence : ℚ
  quality : ℚ
  activity : ℚ
  title : String
  deriving DecidableEq, Repr

/-- `WeightsModule.getTitleMultiplier` (weights.js lines 399–407): fixed
lookup table with default `1.0` for titles outside the table. -/
def getTitleMultiplier (title : String) : ℚ :=
  if title = "主任医师" then 3/2
  else if title = "副主任医师" then 6/5
  else if title = "主治医师" then 1
  else if title = "住院医师" then 4/5
  else 1

/-- `WeightsModule.calculateExampleScore` (weights.js lines 384–394):
weighted sum of the three raw sub-scores, then scaled by
`(1 + titleMultiplier * title_weight_factor)`. -/
def calculateExampleScore (w : WeightsConfig) (e : ScoreExample) : ℚ :=
  (e.influence * w.influence_weight +
   e.quality * w.quality_weight +
   e.activity * w.activity_weight) *
    (1 + getTitleMultiplier e.title * w.title_weight_factor)

/-! ## Ranking (C4) -/

/-- One row of the `/api/scores` result rendered by
`DoctorAnalysisSystem.renderScoresTable`. -/
structure ScoreRow where
  doctor_name : String
  performance_score : ℚ
  cost_performance_score : ℚ
  affinity_score : ℚ
  weighted_total_score : ℚ
  deriving DecidableEq, Repr

/-- The sort performed by `DoctorAnalysisSystem.renderScoresTable`
(part_007 line 316): `[...this.scores].sort((a, b) =>
b.weighted_total_score - a.weighted_total_score)`.  ECMAScript requires
`Array.prototype.sort` to be stable, and for the consistent comparator
`b.score - a.score` the (unique) stable descending order is produced by a
stable merge sort with `le a b := b.score ≤ a.score`. -/
def renderSortScores (scores : List ScoreRow) : List ScoreRow :=
  scores.mergeSort (fun a b => decide (b.weighted_total_score ≤ a.weighted_total_score))

/-! ## Exact decimal numbers for the import pipeline

The importer's numeric values are decimal literals parsed from CSV text
(`parseInt` / `parseFloat`).  To keep the embedding kernel-computable we
represent them in exact decimal fixed point, `mant / 10 ^ exp`; `toRat` gives
the numeric meaning.  All comparisons the importer performs on these values
(against `0` and `100`) agree exactly with the JavaScript comparisons on the
decimal magnitudes involved. -/

/-- An exact decimal number `mant / 10 ^ exp`. -/
structure DecNum where
  mant : ℤ
  exp : ℕ
  deriving DecidableEq, Repr

/-- Numeric value of a decimal. -/
def DecNum.toRat (d : DecNum) : ℚ := (d.mant : ℚ) / 10 ^ d.exp

/-- An integer as a decimal. -/
def DecNum.ofInt (n : ℤ) : DecNum := ⟨n, 0⟩

/-- Exact `≤` on decimals by cross-multiplication. -/
def DecNum.ble (a b : DecNum) : Bool :=
  decide (a.mant * (10 : ℤ) ^ b.exp ≤ b.mant * (10 : ℤ) ^ a.exp)

/-- Exact `<` on decimals by cross-multiplication. -/
def DecNum.blt (a b : DecNum) : Bool :=
  decide (a.mant * (10 : ℤ) ^ b.exp < b.mant * (10 : ℤ) ^ a.exp)

/-- `Math.min` on decimals. -/
def DecNum.minD (a b : DecNum) : DecNum := if DecNum.ble a b then a else b

/-- `Math.max` on decimals. -/
def DecNum.maxD (a b : DecNum) : DecNum := if DecNum.ble a b then b else a

/-- JavaScript truthiness of a number: nonzero. -/
def DecNum.isTruthy (d : DecNum) : Bool := decide (d.mant ≠ 0)

/-! ## Character/string helpers used by the import module

All string manipulation is done with structural functions over `List Char`
so that every definition is kernel-computable. -/

/-- JavaScript `String.prototype.trim` on a character list. -/
def trimChars (l : List Char) : List Char :=
  ((l.dropWhile Char.isWhitespace).reverse.dropWhile Char.isWhitespace).reverse

/-- JavaScript `String.prototype.trim`. -/
def jsTrim (s : String) : String := ⟨trimChars s.data⟩

/-- JavaScript `String.prototype.split` with a one-character separator. -/
def splitOnChar (sep : Char) : List Char → List (List Char)
  | [] => [[]]
  | c :: rest =>
    if c = sep then [] :: splitOnChar sep rest
    else
      match splitOnChar sep rest with
      | [] => [[c]]
      | f :: fs => (c :: f) :: fs

/-- JavaScript `Array.prototype.join` with a separator string. -/
def joinSep (sep : String) : List String → String
  | [] => ""
  | [x] => x
  | x :: y :: rest => x ++ sep ++ joinSep sep (y :: rest)

/-- `value ? value.trim() : ''` applied to a possibly-missing cell. -/
def trimCell (v : Option String) : String :=
  match v with
  | none => ""
  | some s => jsTrim s

/-- JavaScript falsiness/blankness test `!value || value.trim() === ''`
for a possibly-missing string field. -/
def isBlankValue : Option String → Bool
  | none => true
  | some s => s == "" || jsTrim s == ""

/-- `trimmedValue.replace(/[,，]/g, '')`: strip half- and full-width
thousands separators. -/
def stripSeparators (s : String) : String :=
  ⟨s.data.filter (fun c => !(c == ',') && !(c == '，'))⟩

/-- Remove the first occurrence of a character
(JavaScript `replace('%', '')` with a string pattern). -/
def removeFirstChar (t : Char) : List Char → List Char
  | [] => []
  | c :: rest => if c = t then rest else c :: removeFirstChar t rest

/-- `trimmedValue.replace('%', '')`. -/
def stripFirstPercent (s : String) : String := ⟨removeFirstChar '%' s.data⟩

/-- Decimal digits read off the front of a character list, with the rest. -/
def takeDigits : List Char → List ℕ × List Char
  | [] => ([], [])
  | c :: rest =>
    if c.isDigit then
      let (ds, r) := takeDigits rest
      ((c.toNat - 48) :: ds, r)
    else ([], c :: rest)

/-- Value of a most-significant-first digit list. -/
def digitsVal (ds : List ℕ) : ℕ := ds.foldl (fun acc d => 10 * acc + d) 0

/-- Optional leading sign; `true` means negative. -/
def parseSign : List Char → Bool × List Char
  | '-' :: rest => (true, rest)
  | '+' :: rest => (false, rest)
  | l => (false, l)

/-- JavaScript `parseInt` on (already trimmed) decimal input: optional sign,
then the longest digit prefix; `none` models `NaN`.  Trailing non-digit
characters are ignored, as `parseInt` does. -/
def parseIntJS (s : String) : Option ℤ :=
  let (neg, l) := parseSign s.data
  match takeDigits l with
  | ([], _) => none
  | (ds, _) => some (if neg then -(digitsVal ds : ℤ) else (digitsVal ds : ℤ))

/-- JavaScript `parseFloat` on (already trimmed) plain decimal input:
optional sign, integer digits, optional `.` and fraction digits; `none`
models `NaN`.  Trailing non-numeric characters are ignored.  The import
paths that call it never produce exponent notation. -/
def parseFloatJS (s : String) : Option DecNum :=
  let (neg, l) := parseSign s.data
  let (ids, r) := takeDigits l
  let fds :=
    match r with
    | '.' :: r2 => (takeDigits r2).1
    | _ => []
  if ids.isEmpty && fds.isEmpty then none
  else
    let mant : ℤ := (digitsVal ids : ℤ) * (10 : ℤ) ^ fds.length + (digitsVal fds : ℤ)
    some ⟨if neg then -mant else mant, fds.length⟩

/-- Convert a natural number to its decimal string
(JavaScript template interpolation of a row index). -/
def natStr (n : ℕ) : String := ⟨Nat.toDigits 10 n⟩

/-! ## CSV parsing (`ImportModule.parseCSV` / `parseCSVLine`, C6) -/

/-- `ImportModule.parseCSVLine` (src/unnamed/part_006 lines 303–327), on the
character list of one line: a doubled quote inside quotes yields a literal
quote character, a quote toggles the in-quotes state, and commas outside
quotes split fields. -/
def parseCSVLineChars : List Char → Bool → List Char → List (List Char)
  | [], _, cur => [cur]
  | '"' :: '"' :: rest, true, cur => parseCSVLineChars rest true (cur ++ ['"'])
  | '"' :: rest, inQuotes, cur => parseCSVLineChars rest (!inQuotes) cur
  | ',' :: rest, false, cur => cur :: parseCSVLineChars rest false []
  | c :: rest, inQuotes, cur => parseCSVLineChars rest inQuotes (cur ++ [c])

/-- `ImportModule.parseCSVLine` on a string. -/
def parseCSVLine (line : String) : List String :=
  (parseCSVLineChars line.data false []).map fun l => ⟨l⟩

/-- A parsed CSV row: the object built by `parseCSV`, mapping trimmed header
cells to trimmed value cells. -/
abbrev Row := List (String × String)

/-- JavaScript object property write: replace the value in place if the key
exists, else append the new key. -/
def upsert {β : Type} (m : List (String × β)) (k : String) (v : β) :
    List (String × β) :=
  if m.any (fun p => p.1 == k) then
    m.map fun p => if p.1 == k then (k, v) else p
  else m ++ [(k, v)]

/-- JavaScript object property read. -/
def lookupKey {β : Type} (m : List (String × β)) (k : String) : Option β :=
  (m.find? (fun p => p.1 == k)).map Prod.snd

/-- The row object built inside `parseCSV`:
`row[header.trim()] = values[index] ? values[index].trim() : ''`. -/
def buildRow (headers values : List String) : Row :=
  headers.enum.foldl
    (fun row iv => upsert row (jsTrim iv.2) (trimCell (values.get? iv.1))) []

/-- The row-building loop of `parseCSV`: one row object per data line whose
parsed value list is non-empty, against the headers parsed from the header
line. -/
def parseCSVRows (headerLine : String) (rest : List String) : List Row :=
  rest.filterMap fun line =>
    if (parseCSVLine line).length > 0 then
      some (buildRow (parseCSVLine headerLine) (parseCSVLine line))
    else none

/-- `ImportModule.parseCSV` (src/unnamed/part_006 lines 277–298): split into
lines, drop blank lines, fail (`throw`) only when no line remains, use the
first line as header, and build one row object per remaining line. -/
def parseCSV (text : String) : Except String (List Row) :=
  match ((splitOnChar '\n' text.data).map fun l => (⟨l⟩ : String)).filter
      (fun line => jsTrim line ≠ "") with
  | [] => .error "CSV文件为空"
  | headerLine :: rest => .ok (parseCSVRows headerLine rest)

/-! ## Field mapping (`ImportModule.getFieldMapping`, C9/C10) -/

/-- The bilingual synonym table `fieldMap` of `ImportModule.getFieldMapping`
(src/unnamed/part_006 lines 383–418), in source order. -/
def fieldMap : List (String × String) :=
  [("姓名", "name"), ("医生姓名", "name"), ("name", "name"),
   ("职称", "title"), ("医生职称", "title"), ("title", "title"),
   ("医院", "hospital"), ("医院名称", "hospital"), ("hospital", "hospital"),
   ("科室", "department"), ("科室名称", "department"), ("department", "department"),
   ("粉丝数", "followers_count"), ("粉丝数量", "followers_count"),
   ("followers", "followers_count"), ("followers_count", "followers_count"),
   ("文章数", "articles_count"), ("文章数量", "articles_count"),
   ("articles", "articles_count"), ("articles_count", "articles_count"),
   ("平均阅读量", "avg_views"), ("阅读量", "avg_views"),
   ("views", "avg_views"), ("avg_views", "avg_views"),
   ("平均点赞数", "avg_likes"), ("点赞数", "avg_likes"),
   ("likes", "avg_likes"), ("avg_likes", "avg_likes"),
   ("月发文量", "monthly_articles"), ("月发文数", "monthly_articles"),
   ("monthly_articles", "monthly_articles"),
   ("回复率", "response_rate"), ("响应率", "response_rate"),
   ("response_rate", "response_rate")]

/-- `fieldMap[normalizedHeader]`: property lookup in the synonym table
(exact, hence case-sensitive, key comparison). -/
def fieldMapLookup (k : String) : Option String := lookupKey fieldMap k

/-- A field mapping: CSV header cell (trimmed) mapped to a canonical
database field name. -/
abbrev FieldMapping := List (String × String)

/-- One iteration of the `headers.forEach` loop of
`ImportModule.getFieldMapping`: trim the header and add
`trimmedHeader ↦ fieldMap[trimmedHeader]` when the synonym table has a
(truthy) entry; a header not in the table contributes nothing. -/
def fieldMappingStep (m : FieldMapping) (h : String) : FieldMapping :=
  match fieldMapLookup (jsTrim h) with
  | some db => upsert m (jsTrim h) db
  | none => m

/-- `ImportModule.getFieldMapping` (src/unnamed/part_006 lines 378–428). -/
def getFieldMapping (headers : List String) : FieldMapping :=
  headers.foldl fieldMappingStep []

/-! ## Row validation (`ImportModule.validateRow`, C5/C7/C10) -/

/-- A normalized field value: strings for identity fields, exact decimal
numbers for numeric fields. -/
inductive FieldValue where
  | str (s : String)
  | num (d : DecNum)
  deriving DecidableEq, Repr

/-- The required canonical fields of `validateRow`. -/
def requiredFields : List String := ["name", "title", "hospital", "department"]

/-- The integer-valued canonical fields of `normalizeFieldValue`. -/
def intFields : List String :=
  ["followers_count", "articles_count", "avg_views", "avg_likes", "monthly_articles"]

/-- The standard title list of `validateRow`'s special check. -/
def validTitles : List String := ["主任医师", "副主任医师", "主治医师", "住院医师"]

/-- `ImportModule.getDefaultValue` (src/unnamed/part_006 lines 528–538): the
`defaults` object maps the numeric fields to `0`, but the final
`return defaults[field] || ''` turns the falsy `0` (and the `undefined` of
any other field) into `''`, so every call returns the empty string. -/
def getDefaultValue (_field : String) : FieldValue := .str ""

/-- `ImportModule.normalizeFieldValue` (src/unnamed/part_006 lines
488–523): blank values yield the default; identity fields are trimmed;
integer fields are `parseInt`ed after separator stripping and must be
non-negative; `response_rate` is `parseFloat`ed after stripping a percent
sign.  `Except.error` carries the thrown `Error`'s message. -/
def normalizeFieldValue (field : String) (value : Option String) :
    Except String FieldValue :=
  if isBlankValue value then .ok (getDefaultValue field)
  else
    let t := jsTrim (value.getD "")
    if field ∈ requiredFields then .ok (.str t)
    else if field ∈ intFields then
      match parseIntJS (stripSeparators t) with
      | some n => if n < 0 then .error "必须是非负整数" else .ok (.num (.ofInt n))
      | none => .error "必须是非负整数"
    else if field = "response_rate" then
      match parseFloatJS (stripFirstPercent t) with
      | some d => .ok (.num d)
      | none => .error "必须是数字"
    else .ok (.str t)

/-- Intermediate state of `validateRow`'s loop: accumulated errors,
warnings and normalized data. -/
structure LoopState where
  errors : List String
  warnings : List String
  nd : List (String × FieldValue)
  deriving DecidableEq, Repr

/-- The error message for a blank required field:
`第{rowIndex}行：{csvField} 是必填字段`. -/
def requiredMsg (rowIndex : ℕ) (csvField : String) : String :=
  "第" ++ natStr rowIndex ++ "行：" ++ csvField ++ " 是必填字段"

/-- One iteration of `validateRow`'s `for … of Object.entries(fieldMapping)`
loop (src/unnamed/part_006 lines 441–462). -/
def processEntry (row : Row) (rowIndex : ℕ) (st : LoopState)
    (entry : String × String) : LoopState :=
  if entry.2 ∈ requiredFields ∧ isBlankValue (lookupKey row entry.1) then
    { st with errors := st.errors ++ [requiredMsg rowIndex entry.1] }
  else
    match normalizeFieldValue entry.2 (lookupKey row entry.1) with
    | .ok v => { st with nd := upsert st.nd entry.2 v }
    | .error msg =>
      if entry.2 ∈ requiredFields then
        { st with errors := st.errors ++
            ["第" ++ natStr rowIndex ++ "行：" ++ entry.1 ++ " 格式错误 - " ++ msg] }
      else
        { st with
            warnings := st.warnings ++
              ["第" ++ natStr rowIndex ++ "行：" ++ entry.1 ++ " 格式错误，将使用默认值"],
            nd := upsert st.nd entry.2 (getDefaultValue entry.2) }

/-- The special title check of `validateRow` (src/unnamed/part_006 lines
465–470): a truthy (nonempty-string) normalized title outside the standard
list records a warning. -/
def titleCheck (rowIndex : ℕ) (st : LoopState) : LoopState :=
  match lookupKey st.nd "title" with
  | some (.str t) =>
    if t ≠ "" ∧ t ∉ validTitles then
      { st with warnings := st.warnings ++
          ["第" ++ natStr rowIndex ++ "行：职称 \"" ++ t ++ "\" 不在标准列表中"] }
    else st
  | _ => st

/-- The special response-rate check of `validateRow` (src/unnamed/part_006
lines 472–475): a truthy (nonzero) normalized rate outside `[0, 100]`
records a warning and is clamped with `Math.max(0, Math.min(100, v))`. -/
def responseRateCheck (rowIndex : ℕ) (st : LoopState) : LoopState :=
  match lookupKey st.nd "response_rate" with
  | some (.num v) =>
    if v.isTruthy && (v.blt (.ofInt 0) || (DecNum.ofInt 100).blt v) then
      { st with
          warnings := st.warnings ++ ["第" ++ natStr rowIndex ++ "行：回复率应在0-100之间"],
          nd := upsert st.nd "response_rate"
            (.num (DecNum.maxD (.ofInt 0) (DecNum.minD (.ofInt 100) v))) }
    else st
  | _ => st

/-- The result object of `validateRow`. -/
structure RowValidation where
  isValid : Bool
  errors : List String
  warnings : List String
  normalizedData : List (String × FieldValue)
  deriving DecidableEq, Repr

/-- `ImportModule.validateRow` (src/unnamed/part_006 lines 433–483). -/
def validateRow (row : Row) (mapping : FieldMapping) (rowIndex : ℕ) :
    RowValidation :=
  let st := mapping.foldl (processEntry row rowIndex) ⟨[], [], []⟩
  let st := titleCheck rowIndex st
  let st := responseRateCheck rowIndex st
  ⟨st.errors.isEmpty, st.errors, st.warnings, st.nd⟩

/-! ## Whole-file validation (`ImportModule.validateData`) -/

/-- An entry of `validationResults.valid`. -/
structure ValidItem where
  rowIndex : ℕ
  data : List (String × FieldValue)
  warnings : List String
  deriving DecidableEq, Repr

/-- An entry of `validationResults.invalid`. -/
structure InvalidItem where
  rowIndex : ℕ
  data : Row
  errors : List String
  deriving DecidableEq, Repr

/-- `validationResults` with its summary counters. -/
structure ValidationResults where
  valid : List ValidItem
  invalid : List InvalidItem
  total : ℕ
  validCount : ℕ
  invalidCount : ℕ
  warningCount : ℕ
  deriving DecidableEq, Repr

/-- `ImportModule.validateData` (src/unnamed/part_006 lines 332–373): builds
the field mapping from the first row's keys, validates every row (row
numbers starting at 1) and partitions the rows into valid/invalid with
summary counts. -/
def validateData (data : List Row) : ValidationResults :=
  let mapping := getFieldMapping (((data.head?).getD []).map Prod.fst)
  data.enum.foldl
    (fun res ir =>
      let v := validateRow ir.2 mapping (ir.1 + 1)
      if v.isValid then
        { res with
            valid := res.valid ++ [⟨ir.1 + 1, v.normalizedData, v.warnings⟩],
            validCount := res.validCount + 1,
            warningCount := res.warningCount + (if v.warnings.isEmpty then 0 else 1) }
      else
        { res with
            invalid := res.invalid ++ [⟨ir.1 + 1, ir.2, v.errors⟩],
            invalidCount := res.invalidCount + 1 })
    ⟨[], [], data.length, 0, 0, 0⟩

/-! ## Batched commit (`ImportModule.performImport`, C8) -/

/-- `item.data.name` as displayed in the commit results. -/
def nameOf (item : ValidItem) : String :=
  match lookupKey item.data "name" with
  | some (.str s) => s
  | _ => ""

/-- The batch slicing of `performImport` (src/unnamed/part_006 lines
804–810): `valid.slice(i, i + 10)` for `i = 0, 10, 20, …`. -/
def batchesOf10 {α : Type} (l : List α) : List (List α) :=
  if l.isEmpty then [] else l.take 10 :: batchesOf10 (l.drop 10)
termination_by l.length
decreasing_by
  rename_i h
  have hp : 0 < l.length := by
    cases l with
    | nil => simp at h
    | cons a t => simp
  simp only [List.length_drop]
  omega

/-- The mutable `results` object of `performImport`. -/
structure ImportResults where
  success : List (ℕ × String)
  failed : List (ℕ × String × String)
  total : ℕ
  successCount : ℕ
  failedCount : ℕ
  deriving DecidableEq, Repr

/-- Processing of one record inside a batch of `performImport`: a successful
`createDoctor` call appends to `success`, a failed one appends the error
message to `failed`; the failure is caught, never rethrown.  The external
store's behaviour is the oracle `persist` (`none` = success, `some msg` =
failure with that message). -/
def importStep (persist : ValidItem → Option String) (res : ImportResults)
    (item : ValidItem) : ImportResults :=
  match persist item with
  | none =>
    { res with
        success := res.success ++ [(item.rowIndex, nameOf item)],
        successCount := res.successCount + 1 }
  | some msg =>
    { res with
        failed := res.failed ++ [(item.rowIndex, nameOf item, msg)],
        failedCount := res.failedCount + 1 }

/-- `ImportModule.performImport` (src/unnamed/part_006 lines 793–835):
process the valid records batch by batch (batches of 10), collecting
successes and failures; `summary.total` is the number of submitted
records. -/
def performImport (valid : List ValidItem) (persist : ValidItem → Option String) :
    ImportResults :=
  (batchesOf10 valid).foldl (fun res batch => batch.foldl (importStep persist) res)
    ⟨[], [], valid.length, 0, 0⟩

/-! ## The CSV template (`ImportModule.downloadTemplate`, C7) -/

/-- The template headers of `downloadTemplate` (src/unnamed/part_006 lines
915–918). -/
def templateHeaders : List String :=
  ["姓名", "职称", "医院", "科室", "粉丝数", "文章数",
   "平均阅读量", "平均点赞数", "月发文量", "回复率"]

/-- The template sample rows of `downloadTemplate` (src/unnamed/part_006
lines 920–924). -/
def templateSampleData : List (List String) :=
  [["张医生", "主任医师", "北京协和医院", "心内科", "50000", "120", "2000", "150", "8", "85.5"],
   ["李医生", "副主任医师", "上海华山医院", "神经内科", "30000", "80", "1500", "100", "6", "78.2"],
   ["王医生", "主治医师", "广州中山医院", "消化内科", "20000", "60", "1000", "80", "4", "72.8"]]

/-- The CSV text generated by `downloadTemplate`:
`[headers, ...sampleData].map(row => row.join(',')).join('\n')`. -/
def templateCSVContent : String :=
  joinSep "\n" ((templateHeaders :: templateSampleData).map (joinSep ","))

/-- The rows the importer itself parses back out of the template file. -/
def templateRows : List Row := ((parseCSV templateCSVContent).toOption).getD []

/-! ## Concrete values and stating apparatus used by the claim theorems -/

/-- A probe configuration for the medical shape whose weights sum to
`100.05`: off from 100 by `0.05`, which is more than `0.01` but less than
the `0.1` used by `validateWeightsForSaving`. -/
def epsProbeWeights : MedicalWeights := ⟨441/20, 35, 28, 10, 5⟩

/-- Two score rows with equal composite scores; identifier order is
`tieRowA` before `tieRowB`. -/
def tieRowA : ScoreRow := ⟨"A", 1, 1, 1, 50⟩

/-- See `tieRowA`. -/
def tieRowB : ScoreRow := ⟨"B", 2, 2, 2, 50⟩

/-- Lower-casing of a string, for stating what a case-insensitive matcher
would do. -/
def lowerStr (s : String) : String := ⟨s.data.map Char.toLower⟩

/-- Modelled from the spec: the case- and trim-insensitive synonym matching
the claim describes — headers and synonym-table keys compared after
trimming and lower-casing.  Used only to exhibit where the source's exact
(case-sensitive) lookup diverges from it. -/
def getFieldMappingCI (headers : List String) : FieldMapping :=
  headers.foldl
    (fun m h =>
      match lookupKey (fieldMap.map fun p => (lowerStr p.1, p.2)) (lowerStr (jsTrim h)) with
      | some db => upsert m (lowerStr (jsTrim h)) db
      | none => m) []

/-- The successes `performImport` reports: one `(rowIndex, name)` entry per
record the store accepted, in submission order. -/
def successesOf (persist : ValidItem → Option String) (items : List ValidItem) :
    List (ℕ × String) :=
  (items.filter fun it => (persist it).isNone).map fun it => (it.rowIndex, nameOf it)

/-- The failures `performImport` reports: one `(rowIndex, name, message)`
entry per record the store rejected, in submission order. -/
def failuresOf (persist : ValidItem → Option String) (items : List ValidItem) :
    List (ℕ × String × String) :=
  items.filterMap fun it => (persist it).map fun msg => (it.rowIndex, nameOf it, msg)

/-- CSV quoting of a field's characters, as the claim describes quoted
fields: every quote character is doubled.  Stating apparatus for the
round-trip theorem; the parsing direction is the source's
`parseCSVLineChars`. -/
def escapeQuotes : List Char → List Char
  | [] => []
  | c :: rest =>
    if c = '"' then '"' :: '"' :: escapeQuotes rest else c :: escapeQuotes rest

/-- A whole quoted field: the escaped content wrapped in quotes. -/
def escapeField (f : List Char) : List Char := '"' :: (escapeQuotes f ++ ['"'])

/-- Joining fields with the comma delimiter. -/
def joinCommaChars : List (List Char) → List Char
  | [] => []
  | [f] => f
  | f :: g :: fs => f ++ ',' :: joinCommaChars (g :: fs)

/-- A two-record commit scenario for the C8 witness: the store accepts
row 1 and rejects row 2. -/
def itemOkW : ValidItem := ⟨1, [("name", .str "张医生")], []⟩

/-- See `itemOkW`. -/
def itemFailW : ValidItem := ⟨2, [("name", .str "李医生")], []⟩

/-- Store oracle for the C8 witness: rejects row 2 with a message. -/
def persistW : ValidItem → Option String :=
  fun it => if it.rowIndex = 2 then some "store unavailable" else none

/-! ## Semantics of the exact decimal comparisons -/

theorem DecNum.ble_iff (a b : DecNum) : DecNum.ble a b = true ↔ a.toRat ≤ b.toRat := by
  have ha : (0 : ℚ) < 10 ^ a.exp := by positivity
  have hb : (0 : ℚ) < 10 ^ b.exp := by positivity
  simp only [DecNum.ble, decide_eq_true_eq, DecNum.toRat,
    div_le_div_iff₀ ha hb]
  constructor
  · intro h
    exact_mod_cast h
  · intro h
    exact_mod_cast h

theorem DecNum.blt_iff (a b : DecNum) : DecNum.blt a b = true ↔ a.toRat < b.toRat := by
  have ha : (0 : ℚ) < 10 ^ a.exp := by positivity
  have hb : (0 : ℚ) < 10 ^ b.exp := by positivity
  simp only [DecNum.blt, decide_eq_true_eq, DecNum.toRat,
    div_lt_div_iff₀ ha hb]
  constructor
  · intro h
    exact_mod_cast h
  · intro h
    exact_mod_cast h

theorem DecNum.isTruthy_iff (d : DecNum) : DecNum.isTruthy d = true ↔ d.toRat ≠ 0 := by
  have ha : (0 : ℚ) < 10 ^ d.exp := by positivity
  simp [DecNum.isTruthy, DecNum.toRat, div_eq_zero_iff, ne_of_gt ha]

/-! ## C1: save-time validation of the weight sum -/

theorem epsProbeWeights_off_by : |epsProbeWeights.total - 100| = 1/20 := by
  have h : epsProbeWeights.total = 2001/20 := by
    norm_num [MedicalWeights.total, epsProbeWeights]
  rw [h, show (2001/20 : ℚ) - 100 = 1/20 by norm_num, abs_of_nonneg (by norm_num)]

/-- C1, counterexample.  The claim says every save/validate operation
accepts a configuration only when its weight sum is within `0.01` of the
declared total.  `epsProbeWeights` sums to `100.05` — off by `0.05 > 0.01` —
yet `MedicalWeightsModule.validateWeightsForSaving` accepts it (its epsilon
is `0.1`, not `0.01`); only the database `CHECK` constraint would reject
it. -/
theorem C1_counterexample :
    validateWeightsForSaving epsProbeWeights = true ∧
    ¬(|epsProbeWeights.total - 100| ≤ 1/100) ∧
    checkWeightSum epsProbeWeights = false := by
  refine ⟨?_, ?_, ?_⟩
  · simp only [validateWeightsForSaving, epsProbeWeights_off_by]
    norm_num
  · rw [epsProbeWeights_off_by]
    norm_num
  · simp only [checkWeightSum, epsProbeWeights_off_by]
    norm_num

/-- C1, amended.  Exact acceptance conditions of the three save/validate
operations: `WeightsModule.saveWeights` persists iff the main weights sum to
1 within `0.01` (inclusive); `DoctorAnalysisSystem.saveWeights` persists iff
the integer weights sum to exactly 100; but
`MedicalWeightsModule.validateWeightsForSaving` accepts iff the sum is
within `0.1` (strict) of 100 — an epsilon of `0.1`, not the claimed
`0.01`. -/
theorem C1_amended_acceptance :
    (∀ w : WeightsConfig,
        (saveWeightsModule w).isSome = true ↔ |w.mainSum - 1| ≤ 1/100) ∧
    (∀ w : SimpleWeights, (saveWeightsSystem w).isSome = true ↔ w.total = 100) ∧
    (∀ w : MedicalWeights,
        validateWeightsForSaving w = true ↔ |w.total - 100| < 1/10) := by
  refine ⟨fun w => ?_, fun w => ?_, fun w => ?_⟩
  · by_cases h : |w.mainSum - 1| > 1/100
    · simp [saveWeightsModule, h, not_le.mpr h]
    · simp [saveWeightsModule, h, not_lt.mp h]
  · by_cases h : w.total = 100
    · simp [saveWeightsSystem, h]
    · simp [saveWeightsSystem, h]
  · by_cases h : |w.total - 100| ≥ 1/10
    · simp [validateWeightsForSaving, h, not_lt.mpr h]
    · simp [validateWeightsForSaving, h, not_le.mp h]

/-- Witness for `C1_amended_acceptance`: the exactly-summing medical
configuration 22/35/28/10/5 is accepted. -/
theorem C1_amended_witness :
    validateWeightsForSaving ⟨22, 35, 28, 10, 5⟩ = true :=
  (C1_amended_acceptance.2.2 ⟨22, 35, 28, 10, 5⟩).mpr (by norm_num [MedicalWeights.total])

/-! ## C2: the single-default invariant -/

theorem countDefaults_append (s t : List ConfigRow) :
    countDefaults (s ++ t) = countDefaults s + countDefaults t := by
  simp [countDefaults, List.countP_append]

theorem countDefaults_cleared (s : List ConfigRow) :
    countDefaults (s.map fun x => { x with is_default := false }) = 0 := by
  simp [countDefaults, List.countP_map, Function.comp]

theorem find?_of_nodup_mem (s : List ConfigRow) (y : ConfigRow)
    (hnd : (s.map ConfigRow.id).Nodup) (hy : y ∈ s) :
    s.find? (fun r => r.id = y.id) = some y := by
  induction s with
  | nil => cases hy
  | cons a t ih =>
    simp only [List.map_cons, List.nodup_cons] at hnd
    rcases List.mem_cons.mp hy with rfl | hyt
    · rw [List.find?_cons_of_pos _ (by simp)]
    · have hne : ¬(a.id = y.id) := by
        intro he
        exact hnd.1 (he ▸ List.mem_map_of_mem ConfigRow.id hyt)
      rw [List.find?_cons_of_neg _ (by simp [hne])]
      exact ih hnd.2 hyt

theorem countDefaults_activate_map (s : List ConfigRow) (cid : ℕ) :
    countDefaults (s.map fun x =>
      if x.id = cid then { x with is_default := true }
      else if x.is_default then { x with is_default := false } else x) =
    s.countP (fun x => decide (x.id = cid)) := by
  simp only [countDefaults, List.countP_map]
  apply List.countP_congr
  intro a _
  by_cases h : a.id = cid <;> by_cases h2 : a.is_default <;>
    simp [h, h2, Function.comp]

theorem countP_id_eq_count (s : List ConfigRow) (cid : ℕ) :
    s.countP (fun x => decide (x.id = cid)) = (s.map ConfigRow.id).count cid := by
  rw [List.count, List.countP_map]
  apply List.countP_congr
  intro a _
  by_cases h : a.id = cid <;> simp [Function.comp, h]

/-- C2, counterexample.  The claim says no reachable store state has zero or
two active configurations.  But in the plain `weight_configs` table of
`init_db.sql` (which has no trigger or constraint relating default flags)
inserting a second default row — exactly what `DoctorAnalysisSystem.saveWeights`
does, since it always POSTs `is_active: true` — yields a state with two
active rows; and in the trigger-guarded `medical_weight_configs` table a
state with zero active rows is reachable by inserting a non-default row
into an empty store. -/
theorem C2_counterexample :
    countDefaults (plainInsert seededPlainStore ⟨2, true⟩) = 2 ∧
    countDefaults (medicalInsert [] ⟨1, false⟩) = 0 := by decide

/-- C2, amended.  For the `medical_weight_configs` store the triggers do
preserve "at most one default": inserts and activations keep at most one
default flag, and activating `Y` while `X` was the active row atomically
(within the one triggered statement) clears `X` and leaves `Y` as the single
active row.  The "never zero" half of the claim and the plain
`weight_configs` store are not protected. -/
theorem C2_amended_single_default :
    (∀ (s : List ConfigRow) (r : ConfigRow),
        countDefaults s ≤ 1 → countDefaults (medicalInsert s r) ≤ 1) ∧
    (∀ (s : List ConfigRow) (cid : ℕ),
        countDefaults s ≤ 1 → (s.map ConfigRow.id).Nodup →
        countDefaults (medicalActivate s cid) ≤ 1) ∧
    (∀ (s : List ConfigRow) (x y : ConfigRow),
        (s.map ConfigRow.id).Nodup → x ∈ s → y ∈ s →
        x.is_default = true → y.is_default = false → ¬(x.id = y.id) →
        (⟨x.id, false⟩ : ConfigRow) ∈ medicalActivate s y.id ∧
        (⟨y.id, true⟩ : ConfigRow) ∈ medicalActivate s y.id ∧
        countDefaults (medicalActivate s y.id) = 1) := by
  refine ⟨?_, ?_, ?_⟩
  · intro s r h
    by_cases hr : r.is_default = true
    · unfold medicalInsert
      rw [if_pos hr, countDefaults_append, countDefaults_cleared]
      simp [countDefaults, List.countP_cons, hr]
    · unfold medicalInsert
      rw [if_neg hr, countDefaults_append]
      have h1 : countDefaults [r] = 0 := by
        simp [countDefaults, List.countP_cons, hr]
      omega
  · intro s cid h hnd
    unfold medicalActivate
    cases hf : s.find? (fun r => decide (r.id = cid)) with
    | none => simpa [hf] using h
    | some row =>
      simp only [hf]
      by_cases hdef : row.is_default = true
      · simpa [hdef] using h
      · rw [if_neg hdef, countDefaults_activate_map, countP_id_eq_count]
        exact List.nodup_iff_count_le_one.mp hnd cid
  · intro s x y hnd hx hy hxd hyd hne
    have hfind : s.find? (fun r => decide (r.id = y.id)) = some y :=
      find?_of_nodup_mem s y hnd hy
    unfold medicalActivate
    simp only [hfind]
    rw [if_neg (by simp [hyd])]
    refine ⟨?_, ?_, ?_⟩
    · refine List.mem_map.mpr ⟨x, hx, ?_⟩
      simp [hne, hxd]
    · refine List.mem_map.mpr ⟨y, hy, ?_⟩
      simp
    · rw [countDefaults_activate_map, countP_id_eq_count]
      exact List.count_eq_one_of_mem hnd (List.mem_map_of_mem ConfigRow.id hy)

/-- Witness for `C2_amended_single_default`: activating row 2 while row 1 is
the active row in a two-row store. -/
theorem C2_amended_witness :
    (⟨1, false⟩ : ConfigRow) ∈ medicalActivate [⟨1, true⟩, ⟨2, false⟩] 2 ∧
    (⟨2, true⟩ : ConfigRow) ∈ medicalActivate [⟨1, true⟩, ⟨2, false⟩] 2 ∧
    countDefaults (medicalActivate [⟨1, true⟩, ⟨2, false⟩] 2) = 1 :=
  C2_amended_single_default.2.2 [⟨1, true⟩, ⟨2, false⟩] ⟨1, true⟩ ⟨2, false⟩
    (by decide) (by decide) (by decide) (by decide) (by decide) (by decide)

/-! ## C3: the linear-normalization scoring scenario -/

/-- C3, confirmed.  Under the configuration whose three weights are 40%,
30%, 30% (summing to 100%) and whose title-weight factor is zero — the
configuration of the scenario mentions only the three weights — scoring raw
sub-scores 80/60/70 yields `0.4×80 + 0.3×60 + 0.3×70 = 71`, for every
title string. -/
theorem C3_linear_scenario (t : String) :
    calculateExampleScore ⟨40/100, 30/100, 30/100, 0⟩ ⟨80, 60, 70, t⟩ = 71 := by
  simp only [calculateExampleScore, mul_zero, add_zero, mul_one]
  norm_num

/-! ## C4: ranking order and tie-breaking -/

/-- C4, counterexample.  The claim says ties are broken by the entity
identifier.  With two equal-scored rows arriving as `[tieRowB, tieRowA]`,
the stable sort of `renderScoresTable` keeps them in input order — `"B"`
before `"A"` — not in identifier order. -/
theorem C4_counterexample :
    (renderSortScores [tieRowB, tieRowA]).map ScoreRow.doctor_name = ["B", "A"] ∧
    ¬((renderSortScores [tieRowB, tieRowA]).map ScoreRow.doctor_name = ["A", "B"]) ∧
    tieRowB.weighted_total_score = tieRowA.weighted_total_score := by
  have hd : decide (tieRowA.weighted_total_score ≤ tieRowB.weighted_total_score) = true := by
    rw [decide_eq_true_eq]
    norm_num [tieRowA, tieRowB]
  have hs : renderSortScores [tieRowB, tieRowA] = [tieRowB, tieRowA] := by
    apply List.mergeSort_of_sorted
    refine List.pairwise_cons.mpr ⟨?_, List.pairwise_singleton _ _⟩
    intro a ha
    rw [List.mem_singleton] at ha
    subst ha
    exact hd
  rw [hs]
  refine ⟨by simp [tieRowA, tieRowB], by simp [tieRowA, tieRowB], ?_⟩
  norm_num [tieRowA, tieRowB]

/-- C4, amended.  The rendered ranking is a permutation of the score rows,
sorted by composite score descending; ties keep their input order (the sort
is stable: every equal-score subsequence of the input survives as a
subsequence of the output), which makes repeated runs on identical inputs
deterministic — but the tie-break key is input position, not the entity
identifier. -/
theorem C4_amended_stable_ranking (scores : List ScoreRow) :
    (renderSortScores scores).Perm scores ∧
    List.Pairwise
      (fun a b => b.weighted_total_score ≤ a.weighted_total_score)
      (renderSortScores scores) ∧
    ∀ c : List ScoreRow, c.Sublist scores →
      List.Pairwise
        (fun a b : ScoreRow => a.weighted_total_score = b.weighted_total_score) c →
      c.Sublist (renderSortScores scores) := by
  have htrans : ∀ x y z : ScoreRow,
      decide (y.weighted_total_score ≤ x.weighted_total_score) = true →
      decide (z.weighted_total_score ≤ y.weighted_total_score) = true →
      decide (z.weighted_total_score ≤ x.weighted_total_score) = true := by
    intro x y z h1 h2
    simp only [decide_eq_true_eq] at h1 h2 ⊢
    exact le_trans h2 h1
  have htotal : ∀ x y : ScoreRow,
      (decide (y.weighted_total_score ≤ x.weighted_total_score) ||
       decide (x.weighted_total_score ≤ y.weighted_total_score)) = true := by
    intro x y
    simp only [Bool.or_eq_true, decide_eq_true_eq]
    exact le_total y.weighted_total_score x.weighted_total_score
  refine ⟨List.mergeSort_perm scores _, ?_, ?_⟩
  · exact (List.sorted_mergeSort htrans htotal scores).imp
      (by intro a b hab; simpa using hab)
  · intro c hsub hpw
    exact List.sublist_mergeSort htrans htotal
      (hpw.imp (by intro a b hab; simp [hab])) hsub

/-- Witness for `C4_amended_stable_ranking`: the equal-score pair
`[tieRowB, tieRowA]` is a subsequence of the input and survives the sort. -/
theorem C4_amended_witness :
    ([tieRowB, tieRowA] : List ScoreRow).Sublist [tieRowB, tieRowA] ∧
    List.Pairwise
      (fun a b : ScoreRow => a.weighted_total_score = b.weighted_total_score)
      [tieRowB, tieRowA] ∧
    ([tieRowB, tieRowA] : List ScoreRow).Sublist
      (renderSortScores [tieRowB, tieRowA]) := by
  have h1 : ([tieRowB, tieRowA] : List ScoreRow).Sublist [tieRowB, tieRowA] :=
    List.Sublist.refl _
  have h2 : List.Pairwise
      (fun a b : ScoreRow => a.weighted_total_score = b.weighted_total_score)
      [tieRowB, tieRowA] := by
    norm_num [List.pairwise_cons, tieRowA, tieRowB]
  exact ⟨h1, h2, (C4_amended_stable_ranking [tieRowB, tieRowA]).2.2 _ h1 h2⟩

/-! ## Object-update lemmas for the import embedding -/

theorem lookupKey_map_replace {β : Type} (k : String) (v : β) :
    ∀ (m : List (String × β)), m.any (fun p => p.1 == k) = true →
      lookupKey (m.map fun p => if p.1 == k then (k, v) else p) k = some v := by
  intro m
  induction m with
  | nil => intro h; simp at h
  | cons p t ih =>
    intro h
    by_cases hp : (p.1 == k) = true
    · simp only [List.map_cons, if_pos hp]
      unfold lookupKey
      rw [List.find?_cons_of_pos _ (by simp)]
      rfl
    · simp only [List.any_cons, Bool.or_eq_true] at h
      rcases h with h | h
      · exact absurd h hp
      · simp only [List.map_cons, hp, if_false]
        unfold lookupKey
        rw [List.find?_cons_of_neg _ (by simp_all)]
        exact ih h

theorem lookupKey_append_new {β : Type} (k : String) (v : β) :
    ∀ (m : List (String × β)), m.any (fun p => p.1 == k) = false →
      lookupKey (m ++ [(k, v)]) k = some v := by
  intro m
  induction m with
  | nil => simp [lookupKey, List.find?_cons]
  | cons p t ih =>
    intro h
    simp only [List.any_cons, Bool.or_eq_false_iff] at h
    unfold lookupKey
    rw [List.cons_append, List.find?_cons_of_neg _ (by simp [h.1])]
    exact ih h.2

theorem lookupKey_upsert {β : Type} (m : List (String × β)) (k : String) (v : β) :
    lookupKey (upsert m k v) k = some v := by
  unfold upsert
  by_cases h : m.any (fun p => p.1 == k) = true
  · rw [if_pos h]
    exact lookupKey_map_replace k v m h
  · rw [if_neg h]
    exact lookupKey_append_new k v m (by rwa [Bool.not_eq_true] at h)

theorem mem_upsert_elim {β : Type} (m : List (String × β)) (k : String) (v : β)
    (q : String × β) (hq : q ∈ upsert m k v) : q ∈ m ∨ q = (k, v) := by
  unfold upsert at hq
  by_cases h : m.any (fun p => p.1 == k) = true
  · rw [if_pos h] at hq
    rcases List.mem_map.mp hq with ⟨p, hp, he⟩
    by_cases hk : (p.1 == k) = true
    · right
      rw [← he, if_pos hk]
    · left
      rw [← he, if_neg hk]
      exact hp
  · rw [if_neg h] at hq
    rcases List.mem_append.mp hq with h1 | h1
    · exact Or.inl h1
    · exact Or.inr (by simpa using h1)

theorem mem_upsert_self {β : Type} (m : List (String × β)) (k : String) (v : β) :
    (k, v) ∈ upsert m k v := by
  unfold upsert
  by_cases h : m.any (fun p => p.1 == k) = true
  · rw [if_pos h]
    rcases List.any_eq_true.mp h with ⟨p, hp, hpk⟩
    exact List.mem_map.mpr ⟨p, hp, by rw [if_pos hpk]⟩
  · rw [if_neg h]
    exact List.mem_append_right _ (by simp)

theorem mem_upsert_of_ne {β : Type} (m : List (String × β)) (k' : String) (v' : β)
    (q : String × β) (hq : q ∈ m) (hne : (q.1 == k') = false) :
    q ∈ upsert m k' v' := by
  unfold upsert
  by_cases h : m.any (fun p => p.1 == k') = true
  · rw [if_pos h]
    refine List.mem_map.mpr ⟨q, hq, ?_⟩
    rw [if_neg (by simp [hne])]
  · rw [if_neg h]
    exact List.mem_append_left _ hq

/-! ## Flow of errors through `validateRow` -/

theorem titleCheck_errors (idx : ℕ) (st : LoopState) :
    (titleCheck idx st).errors = st.errors := by
  unfold titleCheck
  split
  all_goals first
    | rfl
    | (split <;> rfl)

theorem responseRateCheck_errors (idx : ℕ) (st : LoopState) :
    (responseRateCheck idx st).errors = st.errors := by
  unfold responseRateCheck
  split
  all_goals first
    | rfl
    | (split <;> rfl)

theorem errors_mono_processEntry (row : Row) (idx : ℕ) (st : LoopState)
    (e : String × String) (m : String) (hm : m ∈ st.errors) :
    m ∈ (processEntry row idx st e).errors := by
  unfold processEntry
  split
  · exact List.mem_append_left _ hm
  · split
    · exact hm
    · split
      · exact List.mem_append_left _ hm
      · exact hm

theorem mem_errors_foldl (row : Row) (idx : ℕ) :
    ∀ (mapping : FieldMapping) (st : LoopState) (m : String),
      m ∈ st.errors → m ∈ (mapping.foldl (processEntry row idx) st).errors
  | [], _, _, hm => hm
  | e :: rest, st, m, hm =>
    mem_errors_foldl row idx rest (processEntry row idx st e) m
      (errors_mono_processEntry row idx st e m hm)

theorem requiredMsg_added (row : Row) (idx : ℕ) (csvField : String)
    (hblank : isBlankValue (lookupKey row csvField) = true) :
    ∀ (mapping : FieldMapping), (csvField, "name") ∈ mapping →
      ∀ st : LoopState,
        requiredMsg idx csvField ∈ (mapping.foldl (processEntry row idx) st).errors := by
  intro mapping
  induction mapping with
  | nil => intro h; cases h
  | cons e rest ih =>
    intro hmem st
    rcases List.mem_cons.mp hmem with rfl | hrest
    · rw [List.foldl_cons]
      apply mem_errors_foldl
      unfold processEntry
      have hcond : (csvField, "name").2 ∈ requiredFields ∧
          isBlankValue (lookupKey row (csvField, "name").1) = true := by
        constructor
        · show "name" ∈ requiredFields
          decide
        · exact hblank
      rw [if_pos hcond]
      exact List.mem_append_right _ (by simp)
    · exact ih hrest (processEntry row idx st e)

theorem normalizeRequired_ok (field : String) (value : Option String)
    (hf : field ∈ requiredFields) (hb : isBlankValue value = false) :
    normalizeFieldValue field value = .ok (.str (jsTrim (value.getD ""))) := by
  unfold normalizeFieldValue
  rw [if_neg (by simp [hb]), if_pos hf]

theorem errors_nil_processEntry (row : Row) (idx : ℕ) (st : LoopState)
    (e : String × String)
    (hreq : e.2 ∈ requiredFields → isBlankValue (lookupKey row e.1) = false)
    (h : st.errors = []) :
    (processEntry row idx st e).errors = [] := by
  unfold processEntry
  by_cases h1 : e.2 ∈ requiredFields
  · have hb := hreq h1
    rw [if_neg (by simp [hb]), normalizeRequired_ok e.2 _ h1 hb]
    exact h
  · rw [if_neg (by simp [h1])]
    cases hn : normalizeFieldValue e.2 (lookupKey row e.1) with
    | ok v => exact h
    | error msg =>
      dsimp only
      rw [if_neg h1]
      exact h

theorem errors_nil_foldl (row : Row) (idx : ℕ) :
    ∀ (mapping : FieldMapping) (st : LoopState),
      (∀ p ∈ mapping, p.2 ∈ requiredFields → isBlankValue (lookupKey row p.1) = false) →
      st.errors = [] → (mapping.foldl (processEntry row idx) st).errors = []
  | [], _, _, h => h
  | e :: rest, st, hreq, h =>
    errors_nil_foldl row idx rest (processEntry row idx st e)
      (fun p hp => hreq p (List.mem_cons_of_mem e hp))
      (errors_nil_processEntry row idx st e (hreq e (List.mem_cons_self e rest)) h)

/-! ## C5: clamping out-of-range rates, rejecting blank names -/

/-- C5, confirmed.  (a) When the normalized data holds a `response_rate`
value outside `[0, 100]`, the special check of `validateRow` leaves the
errors untouched (the row still proceeds), records exactly one warning, and
replaces the value by `Math.max(0, Math.min(100, v))` — the nearest bound.
(b) When a header column is mapped to the required `name` field and the
row's value there is blank, `validateRow` records the row-specific message
`第{row}行：{column} 是必填字段` and classifies the row invalid, which
excludes it from the commit phase (only `valid` rows reach
`performImport`). -/
theorem C5_clamp_and_required :
    (∀ (idx : ℕ) (st : LoopState) (v : DecNum),
        lookupKey st.nd "response_rate" = some (.num v) →
        v.toRat < 0 ∨ 100 < v.toRat →
        (responseRateCheck idx st).errors = st.errors ∧
        (responseRateCheck idx st).warnings =
          st.warnings ++ ["第" ++ natStr idx ++ "行：回复率应在0-100之间"] ∧
        lookupKey (responseRateCheck idx st).nd "response_rate" =
          some (.num (DecNum.maxD (.ofInt 0) (DecNum.minD (.ofInt 100) v))) ∧
        (DecNum.maxD (.ofInt 0) (DecNum.minD (.ofInt 100) v)).toRat =
          max 0 (min 100 v.toRat)) ∧
    (∀ (row : Row) (mapping : FieldMapping) (idx : ℕ) (csvField : String),
        (csvField, "name") ∈ mapping →
        isBlankValue (lookupKey row csvField) = true →
        requiredMsg idx csvField ∈ (validateRow row mapping idx).errors ∧
        (validateRow row mapping idx).isValid = false) := by
  have h0 : (DecNum.ofInt 0).toRat = 0 := by norm_num [DecNum.toRat, DecNum.ofInt]
  have h100 : (DecNum.ofInt 100).toRat = 100 := by norm_num [DecNum.toRat, DecNum.ofInt]
  constructor
  · intro idx st v hv hout
    have htruthy : v.isTruthy = true := by
      rw [DecNum.isTruthy_iff]
      rcases hout with h | h
      · exact ne_of_lt h
      · exact ne_of_gt (lt_trans (by norm_num) h)
    have hcond : (v.blt (.ofInt 0) || (DecNum.ofInt 100).blt v) = true := by
      rw [Bool.or_eq_true, DecNum.blt_iff, DecNum.blt_iff, h0, h100]
      exact hout
    have hmin : (DecNum.minD (.ofInt 100) v).toRat = min 100 v.toRat := by
      unfold DecNum.minD
      by_cases h1 : DecNum.ble (.ofInt 100) v = true
      · have h1r := (DecNum.ble_iff _ _).mp h1
        rw [h100] at h1r
        rw [if_pos h1, h100, min_eq_left h1r]
      · have h1r : ¬((DecNum.ofInt 100).toRat ≤ v.toRat) :=
          fun hc => h1 ((DecNum.ble_iff _ _).mpr hc)
        rw [h100] at h1r
        rw [if_neg h1, min_eq_right (le_of_not_le h1r)]
    have hmax : (DecNum.maxD (.ofInt 0) (DecNum.minD (.ofInt 100) v)).toRat =
        max 0 (DecNum.minD (.ofInt 100) v).toRat := by
      unfold DecNum.maxD
      by_cases h1 : DecNum.ble (.ofInt 0) (DecNum.minD (.ofInt 100) v) = true
      · have h1r := (DecNum.ble_iff _ _).mp h1
        rw [h0] at h1r
        rw [if_pos h1, max_eq_right h1r]
      · have h1r : ¬((DecNum.ofInt 0).toRat ≤ (DecNum.minD (.ofInt 100) v).toRat) :=
          fun hc => h1 ((DecNum.ble_iff _ _).mpr hc)
        rw [h0] at h1r
        rw [if_neg h1, h0, max_eq_left (le_of_not_le h1r)]
    unfold responseRateCheck
    simp only [hv]
    rw [if_pos (by rw [htruthy, hcond]; rfl)]
    exact ⟨rfl, rfl, lookupKey_upsert _ _ _, by rw [hmax, hmin]⟩
  · intro row mapping idx csvField hmem hblank
    have hE : requiredMsg idx csvField ∈
        (mapping.foldl (processEntry row idx) ⟨[], [], []⟩).errors :=
      requiredMsg_added row idx csvField hblank mapping hmem ⟨[], [], []⟩
    have hEv : (validateRow row mapping idx).errors =
        (mapping.foldl (processEntry row idx) ⟨[], [], []⟩).errors := by
      show (responseRateCheck idx (titleCheck idx
          (mapping.foldl (processEntry row idx) ⟨[], [], []⟩))).errors = _
      rw [responseRateCheck_errors, titleCheck_errors]
    refine ⟨by rw [hEv]; exact hE, ?_⟩
    show ((responseRateCheck idx (titleCheck idx
        (mapping.foldl (processEntry row idx) ⟨[], [], []⟩))).errors).isEmpty = false
    rw [responseRateCheck_errors, titleCheck_errors]
    cases hl : (mapping.foldl (processEntry row idx) ⟨[], [], []⟩).errors with
    | nil => rw [hl] at hE; cases hE
    | cons a t => rfl

/-- Witness for `C5_clamp_and_required`: the rate value `150` is clamped
with a warning, and a blank `姓名` (name) cell is rejected as fatal with the
row-2 message. -/
theorem C5_witness :
    ((responseRateCheck 2 ⟨[], [], [("response_rate", FieldValue.num ⟨150, 0⟩)]⟩).errors
        = [] ∧
      (responseRateCheck 2 ⟨[], [], [("response_rate", FieldValue.num ⟨150, 0⟩)]⟩).warnings
        = [] ++ ["第" ++ natStr 2 ++ "行：回复率应在0-100之间"] ∧
      lookupKey
        (responseRateCheck 2 ⟨[], [], [("response_rate", FieldValue.num ⟨150, 0⟩)]⟩).nd
        "response_rate" =
        some (.num (DecNum.maxD (.ofInt 0) (DecNum.minD (.ofInt 100) ⟨150, 0⟩))) ∧
      (DecNum.maxD (.ofInt 0) (DecNum.minD (.ofInt 100) (⟨150, 0⟩ : DecNum))).toRat =
        max 0 (min 100 (DecNum.toRat ⟨150, 0⟩))) ∧
    (requiredMsg 2 "姓名" ∈ (validateRow [("姓名", "")] [("姓名", "name")] 2).errors ∧
      (validateRow [("姓名", "")] [("姓名", "name")] 2).isValid = false) :=
  ⟨C5_clamp_and_required.1 2 ⟨[], [], [("response_rate", FieldValue.num ⟨150, 0⟩)]⟩
      ⟨150, 0⟩ (by decide) (Or.inr (by norm_num [DecNum.toRat])),
    C5_clamp_and_required.2 [("姓名", "")] [("姓名", "name")] 2 "姓名"
      (by decide) (by decide)⟩

/-! ## C10: required-field checks happen only for mapped columns -/

/-- C10, confirmed.  `validateRow` iterates only over the entries of the
header mapping, so required-field presence is checked only for canonical
fields some header actually mapped to: whenever every *mapped* required
field of a row is non-blank, the row is classified valid — even if the
mapping contains no `name` column at all, i.e. a file without a name header
produces no error for the absent required field. -/
theorem C10_required_only_when_mapped (row : Row) (mapping : FieldMapping) (idx : ℕ)
    (hreq : ∀ p ∈ mapping, p.2 ∈ requiredFields → isBlankValue (lookupKey row p.1) = false) :
    (validateRow row mapping idx).errors = [] ∧
    (validateRow row mapping idx).isValid = true := by
  have h := errors_nil_foldl row idx mapping ⟨[], [], []⟩ hreq rfl
  have hEv : (validateRow row mapping idx).errors =
      (mapping.foldl (processEntry row idx) ⟨[], [], []⟩).errors := by
    show (responseRateCheck idx (titleCheck idx
        (mapping.foldl (processEntry row idx) ⟨[], [], []⟩))).errors = _
    rw [responseRateCheck_errors, titleCheck_errors]
  refine ⟨by rw [hEv]; exact h, ?_⟩
  show ((responseRateCheck idx (titleCheck idx
      (mapping.foldl (processEntry row idx) ⟨[], [], []⟩))).errors).isEmpty = true
  rw [responseRateCheck_errors, titleCheck_errors, h]
  rfl

/-- Witness for `C10_required_only_when_mapped`: a file whose headers map
only to title/hospital/department — no name column — yields a valid row
although the required name is absent. -/
theorem C10_witness :
    (validateRow [("职称", "主任医师"), ("医院", "北京协和医院"), ("科室", "心内科")]
      [("职称", "title"), ("医院", "hospital"), ("科室", "department")] 1).errors = [] ∧
    (validateRow [("职称", "主任医师"), ("医院", "北京协和医院"), ("科室", "心内科")]
      [("职称", "title"), ("医院", "hospital"), ("科室", "department")] 1).isValid = true :=
  C10_required_only_when_mapped _ _ 1 (by decide)

/-! ## C9: header-to-field mapping -/

theorem mem_getFieldMapping_fold :
    ∀ (hs : List String) (acc : FieldMapping) (p : String × String),
      p ∈ hs.foldl fieldMappingStep acc →
      p ∈ acc ∨ ((∃ h ∈ hs, jsTrim h = p.1) ∧ fieldMapLookup p.1 = some p.2)
  | [], _, _, hp => Or.inl hp
  | h0 :: t, acc, p, hp => by
    rcases mem_getFieldMapping_fold t (fieldMappingStep acc h0) p hp with h | h
    · unfold fieldMappingStep at h
      cases hl : fieldMapLookup (jsTrim h0) with
      | none =>
        rw [hl] at h
        exact Or.inl h
      | some db =>
        rw [hl] at h
        rcases mem_upsert_elim acc (jsTrim h0) db p h with h2 | h2
        · exact Or.inl h2
        · subst h2
          exact Or.inr ⟨⟨h0, List.mem_cons_self h0 t, rfl⟩, hl⟩
    · exact Or.inr ⟨⟨h.1.choose, List.mem_cons_of_mem h0 h.1.choose_spec.1,
        h.1.choose_spec.2⟩, h.2⟩

theorem mem_fold_preserved :
    ∀ (hs : List String) (acc : FieldMapping) (k db : String),
      fieldMapLookup k = some db → (k, db) ∈ acc →
      (k, db) ∈ hs.foldl fieldMappingStep acc
  | [], _, _, _, _, hacc => hacc
  | h0 :: t, acc, k, db, hl, hacc => by
    apply mem_fold_preserved t (fieldMappingStep acc h0) k db hl
    unfold fieldMappingStep
    cases hl0 : fieldMapLookup (jsTrim h0) with
    | none => exact hacc
    | some v =>
      by_cases hk : ((k : String) == jsTrim h0) = true
      · have hkk : jsTrim h0 = k := (beq_iff_eq.mp hk).symm
        have hv : v = db := by
          rw [hkk] at hl0
          exact Option.some.inj (hl0.symm.trans hl)
        rw [hkk, hv]
        exact mem_upsert_self acc k db
      · exact mem_upsert_of_ne acc (jsTrim h0) v (k, db) hacc
          (by rwa [Bool.not_eq_true] at hk)

theorem getFieldMapping_complete :
    ∀ (hs : List String) (acc : FieldMapping) (k db : String),
      fieldMapLookup k = some db → (∃ h ∈ hs, jsTrim h = k) →
      (k, db) ∈ hs.foldl fieldMappingStep acc
  | [], _, _, _, _, hex => absurd hex.choose_spec.1 (List.not_mem_nil _)
  | h0 :: t, acc, k, db, hl, hex => by
    rcases hex with ⟨h, hh, hk⟩
    rcases List.mem_cons.mp hh with heq | hht
    · have hk0 : jsTrim h0 = k := heq ▸ hk
      apply mem_fold_preserved t (fieldMappingStep acc h0) k db hl
      unfold fieldMappingStep
      rw [hk0, hl]
      exact mem_upsert_self acc k db
    · exact getFieldMapping_complete t (fieldMappingStep acc h0) k db hl ⟨h, hht, hk⟩

/-- C9, counterexample.  The claim says header cells are matched
case-insensitively.  The header `"Name"` differs from the synonym `"name"`
only by case, yet the source maps `"name"` and ignores `"Name"` entirely —
the lookup is an exact, case-sensitive property access — while the
case-insensitive matcher the spec describes would map it. -/
theorem C9_counterexample :
    getFieldMapping ["Name"] = [] ∧
    getFieldMapping ["name"] = [("name", "name")] ∧
    getFieldMappingCI ["Name"] = [("name", "name")] := by decide

/-- C9, amended.  `getFieldMapping` matches header cells trim-insensitively
but case-sensitively: a pair `(k, db)` is in the mapping exactly when some
header trims to `k` and the synonym table maps `k` — by exact comparison —
to `db`; in particular a header whose trimmed form is not a listed synonym
is ignored without any failure. -/
theorem C9_amended_mapping (headers : List String) (k db : String) :
    (k, db) ∈ getFieldMapping headers ↔
      (∃ h ∈ headers, jsTrim h = k) ∧ fieldMapLookup k = some db := by
  constructor
  · intro hp
    rcases mem_getFieldMapping_fold headers [] (k, db) hp with h | h
    · cases h
    · exact h
  · rintro ⟨hex, hl⟩
    exact getFieldMapping_complete headers [] k db hl hex

/-- Witness for `C9_amended_mapping`: the Chinese header `"姓名"` maps to
the canonical `name` field. -/
theorem C9_amended_witness : ("姓名", "name") ∈ getFieldMapping ["姓名"] :=
  (C9_amended_mapping ["姓名"] "姓名" "name").mpr
    ⟨⟨"姓名", by simp, by decide⟩, by decide⟩

/-! ## C8: batched commit with per-record failure isolation -/

theorem flatten_batchesOf10 {α : Type} (l : List α) : (batchesOf10 l).flatten = l := by
  induction l using batchesOf10.induct with
  | case1 l h =>
    have hl : l = [] := by
      cases l with
      | nil => rfl
      | cons a t => simp at h
    subst hl
    simp [batchesOf10]
  | case2 l h ih =>
    rw [batchesOf10, if_neg h, List.flatten_cons, ih, List.take_append_drop]

theorem batchesOf10_bounded {α : Type} (l : List α) :
    ∀ b ∈ batchesOf10 l, b.length ≤ 10 ∧ b ≠ [] := by
  induction l using batchesOf10.induct with
  | case1 l h =>
    intro b hb
    rw [batchesOf10, if_pos h] at hb
    cases hb
  | case2 l h ih =>
    intro b hb
    rw [batchesOf10, if_neg h] at hb
    rcases List.mem_cons.mp hb with rfl | hb2
    · have hl : l ≠ [] := by
        cases l with
        | nil => simp at h
        | cons a t => simp
      refine ⟨by rw [List.length_take]; exact min_le_left _ _, ?_⟩
      have hpos : 0 < (l.take 10).length := by
        rw [List.length_take]
        have h2 := List.length_pos.mpr hl
        omega
      exact List.length_pos.mp hpos
    · exact ih b hb2

theorem countP_isNone_add_isSome (persist : ValidItem → Option String) :
    ∀ items : List ValidItem,
      items.countP (fun it => (persist it).isNone) +
        items.countP (fun it => (persist it).isSome) = items.length
  | [] => rfl
  | it :: rest => by
    rw [List.countP_cons, List.countP_cons, List.length_cons]
    have h := countP_isNone_add_isSome persist rest
    cases hp : persist it <;> simp [hp] <;> omega

theorem foldl_importStep (persist : ValidItem → Option String) :
    ∀ (items : List ValidItem) (res : ImportResults),
      items.foldl (importStep persist) res =
        ⟨res.success ++ successesOf persist items,
         res.failed ++ failuresOf persist items,
         res.total,
         res.successCount + items.countP (fun it => (persist it).isNone),
         res.failedCount + items.countP (fun it => (persist it).isSome)⟩
  | [], res => by
    simp [successesOf, failuresOf]
  | it :: rest, res => by
    rw [List.foldl_cons, foldl_importStep persist rest]
    unfold importStep
    cases hp : persist it with
    | none =>
      simp [successesOf, failuresOf, List.filter_cons, List.filterMap_cons,
        List.countP_cons, hp, ImportResults.mk.injEq, List.append_assoc]
      omega
    | some msg =>
      simp [successesOf, failuresOf, List.filter_cons, List.filterMap_cons,
        List.countP_cons, hp, ImportResults.mk.injEq, List.append_assoc]
      omega

/-- C8, confirmed.  `performImport` submits the valid records to the store
in batches of (at most) 10 whose concatenation is exactly the submitted
list; every record is accounted for — `successCount + failedCount` equals
the number of submitted records — and a failed write is recorded as a
`(rowIndex, name, message)` failure entry while every other record is still
processed, whatever the store's behaviour `persist`. -/
theorem C8_batched_commit (valid : List ValidItem) (persist : ValidItem → Option String) :
    (performImport valid persist).total = valid.length ∧
    (performImport valid persist).successCount + (performImport valid persist).failedCount
      = valid.length ∧
    (performImport valid persist).success = successesOf persist valid ∧
    (performImport valid persist).failed = failuresOf persist valid ∧
    (batchesOf10 valid).flatten = valid ∧
    (∀ b ∈ batchesOf10 valid, b.length ≤ 10 ∧ b ≠ []) := by
  have hfold : performImport valid persist =
      valid.foldl (importStep persist) ⟨[], [], valid.length, 0, 0⟩ := by
    unfold performImport
    rw [← flatten_batchesOf10 valid, List.foldl_flatten]
    rw [flatten_batchesOf10 valid]
  rw [hfold, foldl_importStep persist valid]
  have hc := countP_isNone_add_isSome persist valid
  exact ⟨rfl, by simpa using hc, by simp, by simp, flatten_batchesOf10 valid,
    batchesOf10_bounded valid⟩

/-- Witness for `C8_batched_commit`: of two submitted records the store
rejects the second; both are accounted for and the single batch is within
the size bound. -/
theorem C8_witness :
    (performImport [itemOkW, itemFailW] persistW).successCount +
      (performImport [itemOkW, itemFailW] persistW).failedCount = 2 ∧
    (performImport [itemOkW, itemFailW] persistW).success =
      successesOf persistW [itemOkW, itemFailW] ∧
    (performImport [itemOkW, itemFailW] persistW).failed =
      failuresOf persistW [itemOkW, itemFailW] ∧
    ([itemOkW, itemFailW] : List ValidItem).length ≤ 10 ∧
    ([itemOkW, itemFailW] : List ValidItem) ≠ [] := by
  have h := C8_batched_commit [itemOkW, itemFailW] persistW
  have hb : [itemOkW, itemFailW] ∈ batchesOf10 ([itemOkW, itemFailW] : List ValidItem) := by
    rw [batchesOf10, if_neg (by decide)]
    have ht : List.take 10 [itemOkW, itemFailW] = [itemOkW, itemFailW] := by decide
    rw [ht]
    exact List.mem_cons_self _ _
  have hlast := h.2.2.2.2.2 [itemOkW, itemFailW] hb
  exact ⟨by simpa using h.2.1, h.2.2.1, h.2.2.2.1, hlast.1, hlast.2⟩

/-! ## C6: quoted-field parsing and whole-parse failure -/

theorem parseCSVLineChars_escape :
    ∀ (f rest cur : List Char), rest.head? ≠ some '"' →
      parseCSVLineChars (escapeQuotes f ++ '"' :: rest) true cur =
      parseCSVLineChars rest false (cur ++ f)
  | [], rest, cur, h => by
    rw [List.append_nil]
    show parseCSVLineChars ('"' :: rest) true cur = _
    cases rest with
    | nil => simp [parseCSVLineChars]
    | cons c rest2 =>
      have hc : ¬(c = '"') := fun he => h (by rw [he]; rfl)
      simp [parseCSVLineChars, hc]
  | c :: f, rest, cur, h => by
    by_cases hc : c = '"'
    · subst hc
      have hstep :
          parseCSVLineChars ('"' :: '"' :: (escapeQuotes f ++ '"' :: rest)) true cur =
          parseCSVLineChars (escapeQuotes f ++ '"' :: rest) true (cur ++ ['"']) := rfl
      show parseCSVLineChars ('"' :: '"' :: (escapeQuotes f ++ '"' :: rest)) true cur = _
      rw [hstep, parseCSVLineChars_escape f rest (cur ++ ['"']) h]
      simp [List.append_assoc]
    · have he : escapeQuotes (c :: f) = c :: escapeQuotes f := by
        simp [escapeQuotes, hc]
      rw [he, List.cons_append]
      by_cases hcm : c = ','
      · subst hcm
        have hstep :
            parseCSVLineChars (',' :: (escapeQuotes f ++ '"' :: rest)) true cur =
            parseCSVLineChars (escapeQuotes f ++ '"' :: rest) true (cur ++ [',']) := rfl
        rw [hstep, parseCSVLineChars_escape f rest (cur ++ [',']) h]
        simp [List.append_assoc]
      · have hstep :
            parseCSVLineChars (c :: (escapeQuotes f ++ '"' :: rest)) true cur =
            parseCSVLineChars (escapeQuotes f ++ '"' :: rest) true (cur ++ [c]) := by
          simp [parseCSVLineChars, hc, hcm]
        rw [hstep, parseCSVLineChars_escape f rest (cur ++ [c]) h]
        simp [List.append_assoc]

theorem parseCSVLineChars_open_quote (X cur : List Char) :
    parseCSVLineChars ('"' :: X) false cur = parseCSVLineChars X true cur := by
  cases X with
  | nil => rfl
  | cons c rest =>
    by_cases hc : c = '"'
    · subst hc
      rfl
    · simp [parseCSVLineChars, hc]

theorem parseCSVLineChars_join_escape :
    ∀ (fields : List (List Char)), fields ≠ [] →
      parseCSVLineChars (joinCommaChars (fields.map escapeField)) false [] = fields
  | [], h => absurd rfl h
  | [f], _ => by
    show parseCSVLineChars ('"' :: (escapeQuotes f ++ ['"'])) false [] = [f]
    rw [parseCSVLineChars_open_quote]
    have h2 := parseCSVLineChars_escape f [] [] (by simp)
    simpa [parseCSVLineChars] using h2
  | f :: g :: fs, _ => by
    have hre : joinCommaChars ((f :: g :: fs).map escapeField) =
        '"' :: (escapeQuotes f ++ '"' ::
          (',' :: joinCommaChars ((g :: fs).map escapeField))) := by
      show escapeField f ++ ',' :: joinCommaChars ((g :: fs).map escapeField) = _
      simp [escapeField, List.append_assoc]
    rw [hre, parseCSVLineChars_open_quote,
      parseCSVLineChars_escape f _ [] (by simp)]
    have hstep2 : parseCSVLineChars
          (',' :: joinCommaChars ((g :: fs).map escapeField)) false ([] ++ f) =
        ([] ++ f) :: parseCSVLineChars
          (joinCommaChars ((g :: fs).map escapeField)) false [] := rfl
    rw [hstep2, parseCSVLineChars_join_escape (g :: fs) (by simp)]
    simp

/-- C6, confirmed.  (a) Round-trip through quoting: for every non-empty
field list — fields may contain commas and quote characters — quoting each
field (doubling inner quotes) and joining with commas parses back, through
the source's `parseCSVLineChars`, to exactly the original fields, so a
quoted field may contain the delimiter and doubled quotes and parses to its
unquoted content.  (b) `parseCSV` fails precisely when no non-blank line
exists — an empty input or one with no header row; any other input parses,
with per-row problems left to validation. -/
theorem C6_quoting_and_failure :
    (∀ (fields : List (List Char)), fields ≠ [] →
        parseCSVLineChars (joinCommaChars (fields.map escapeField)) false [] = fields) ∧
    (∀ text : String,
        (∃ msg, parseCSV text = .error msg) ↔
          ((splitOnChar '\n' text.data).map (fun l => (⟨l⟩ : String))).filter
            (fun line => jsTrim line ≠ "") = []) := by
  refine ⟨parseCSVLineChars_join_escape, ?_⟩
  intro text
  cases hl : ((splitOnChar '\n' text.data).map (fun l => (⟨l⟩ : String))).filter
      (fun line => jsTrim line ≠ "") with
  | nil =>
    have hpc : parseCSV text = .error "CSV文件为空" := by
      unfold parseCSV
      rw [hl]
    simp [hpc]
  | cons a t =>
    have hpc : parseCSV text = .ok (parseCSVRows a t) := by
      unfold parseCSV
      rw [hl]
    simp [hpc, hl]

/-- Witness for `C6_quoting_and_failure`: the two fields `a,b` (contains
the delimiter) and `c"d` (contains a quote) survive the quote/parse
round-trip. -/
theorem C6_witness :
    parseCSVLineChars
      (joinCommaChars (([['a', ',', 'b'], ['c', '"', 'd']] :
        List (List Char)).map escapeField)) false [] =
      [['a', ',', 'b'], ['c', '"', 'd']] :=
  C6_quoting_and_failure.1 [['a', ',', 'b'], ['c', '"', 'd']] (by decide)

/-! ## C7: the export template re-imports cleanly -/

/-- C7, confirmed.  Parsing the system's own downloadable CSV template and
running the importer's field mapping and row validation over it yields
three valid rows, no invalid rows, and no warnings. -/
theorem C7_template_roundtrip :
    (parseCSV templateCSVContent).isOk = true ∧
    (validateData templateRows).total = 3 ∧
    (validateData templateRows).validCount = 3 ∧
    (validateData templateRows).invalidCount = 0 ∧
    (validateData templateRows).invalid = [] ∧
    ((validateData templateRows).valid.all fun item => item.warnings.isEmpty) = true := by
  decide

end RustWebFullstack
